import Mathlib

/-!
Verification development for the resilient authenticated request pipeline of
`openapi-sdk-go` (package `v3/client`).  The definitions below are a shallow
embedding of `src/v3/client/client.go` (the bounded-retry revision: `Client`,
`Send`, `parse`, `WithToken`, `WithKey`, `applyToken`, `NewClient`, `OK`,
`Unmarshal`).  Effectful behaviour (HTTP dispatch, `time.Sleep`, credential
refresh) is made explicit by threading a state that records a trace of events
and by consulting an oracle (one `HttpOutcome` per dispatched request) that
stands for the network.  Go `int` values are modelled as `Int` (64-bit
overflow is out of scope).  The pluggable codec (`marshal`/`unmarshal`
fields) is kept abstract over a byte type `β`, exactly as the Go code treats
it as an opaque pair of functions.
-/

namespace OpenAPISDK

/-- Generic JSON values, the model of Go's `any` when it holds decoded JSON.
Numbers are modelled as integers (the envelope fields in play are integral;
floating point is out of scope). -/
inductive Json where
  | null : Json
  | bool (b : Bool) : Json
  | num (n : Int) : Json
  | str (s : String) : Json
  | arr (xs : List Json) : Json
  | obj (fields : List (String × Json)) : Json

/-- Go `error` values produced by the pipeline: opaque external errors
(codec, transport, ...), the `fmt.Errorf` produced by `applyToken` on a
non-200 upstream code, and the retry-exhaustion `fmt.Errorf("request failed
after %d retries", maxRetries)`. -/
inductive GoError where
  | msg (s : String) : GoError
  | tokenUpstreamFailed (code : Int) (m : String) : GoError
  | retriesExhausted (n : Int) : GoError
deriving DecidableEq, Repr

/-- `const Endpoint` from `v3/const.go`. -/
def Endpoint : String := "https://api.gh.ink/v3"

/-- `v3.UserAgent` from `v3/const.go`; the `runtime.GOOS`/`runtime.GOARCH`
components are platform placeholders (their value is irrelevant to every
property below). -/
def UserAgent : String := "GhinkOpenAPISDK-GO/1.0.6 (GOOS; GOARCH)"

section Model

variable {β : Type}

/-- The `Client` struct of `v3/client/client.go`.  The `marshal`/`unmarshal`
fields are the pluggable codec; `unmarshal` is modelled as decoding bytes to
a generic `Json` value (decoding into a concrete Go struct is this generic
decode followed by field extraction, see `decodeEnvelope`).  The logger is
omitted: the spec excludes the logging sink and the log statements have no
control-flow effect except the `bodyRaw` unmarshal, which is modelled
explicitly in the dispatch loops. -/
structure Client (β : Type) where
  endpoint : String
  secretID : String
  secretKey : String
  enableToken : Bool
  token : String
  timeout : Int
  maxRetries : Int
  retryDelay : Int
  exponentialBackoff : Bool
  marshal : Json → Except GoError β
  unmarshal : β → Except GoError Json

/-- An `*http.Request`: method, URL, optional encoded body, and the header
as an ordered list of (key, value) pairs — `Header.Add` appends. -/
structure Request (β : Type) where
  method : String
  url : String
  body : Option β
  headers : List (String × String)

/-- `http.Header.Add`: appends a value for the key, keeping earlier values. -/
def Request.headerAdd (r : Request β) (k v : String) : Request β :=
  { r with headers := r.headers ++ [(k, v)] }

/-- All values of a header key, in insertion order (Go keeps a list per key). -/
def Request.headerValues (r : Request β) (k : String) : List String :=
  (r.headers.filter (fun p => p.1 == k)).map (fun p => p.2)

/-- `http.Header.Get`: the first value of the key (or `none`). -/
def Request.headerGet (r : Request β) (k : String) : Option String :=
  (r.headerValues k).head?

/-- The zero `Request` (stands for Go's nil `*http.Request` stored in a
`Sender` built on the error path; it is never dispatched because `WithToken`
and `WithKey` check `err` first). -/
def emptyRequest : Request β :=
  { method := "", url := "", body := none, headers := [] }

/-- The `Result` struct: API code, message, re-serialized `data` bytes, and
error.  Field defaults are the Go zero values. -/
structure Result (β : Type) where
  client : Client β
  Code : Int := 0
  Msg : String := ""
  Body : Option β := none
  Err : Option GoError := none

/-- `Result.OK`: success iff the API code is 200. -/
def Result.OK (r : Result β) : Bool := r.Code == 200

/-- The `Sender` struct.  On the Go error path `request` is nil; here it is
the zero request (never dispatched, `err` is checked first). -/
structure Sender (β : Type) where
  client : Client β
  request : Request β
  err : Option GoError

/-- The upstream envelope struct `{Code int; Msg string; Data any}` with
JSON tags `code`, `msg`, `data`. -/
structure Envelope where
  code : Int
  msg : String
  data : Json

/-- First value bound to a key in a decoded JSON object. -/
def lookupField (fields : List (String × Json)) (k : String) : Option Json :=
  (fields.filter (fun p => p.1 == k)).head?.map (fun p => p.2)

/-- Decoding a generic JSON value into the envelope struct, mirroring Go
JSON semantics for `struct {Code int; Msg string; Data any}`: the top level
must be an object (or `null`, which leaves the struct at its zero value),
missing fields keep their zero values, and a present field of the wrong
type is a decode error. -/
def decodeEnvelope : Json → Except GoError Envelope
  | Json.null => Except.ok { code := 0, msg := "", data := Json.null }
  | Json.obj fields =>
    match lookupField fields "code" with
    | some (Json.num n) =>
      (match lookupField fields "msg" with
       | some (Json.str m) =>
         Except.ok { code := n, msg := m, data := (lookupField fields "data").getD Json.null }
       | some _ => Except.error (GoError.msg "cannot unmarshal msg field")
       | none =>
         Except.ok { code := n, msg := "", data := (lookupField fields "data").getD Json.null })
    | some _ => Except.error (GoError.msg "cannot unmarshal code field")
    | none =>
      (match lookupField fields "msg" with
       | some (Json.str m) =>
         Except.ok { code := 0, msg := m, data := (lookupField fields "data").getD Json.null }
       | some _ => Except.error (GoError.msg "cannot unmarshal msg field")
       | none =>
         Except.ok { code := 0, msg := "", data := (lookupField fields "data").getD Json.null })
  | _ => Except.error (GoError.msg "cannot unmarshal body into envelope struct")

/-- Decoding a generic JSON value into `struct {Token string}` (tag
`token`), used by `applyToken`; same Go decode semantics as above. -/
def decodeTokenData : Json → Except GoError String
  | Json.null => Except.ok ""
  | Json.obj fields =>
    match lookupField fields "token" with
    | some (Json.str t) => Except.ok t
    | some _ => Except.error (GoError.msg "cannot unmarshal token field")
    | none => Except.ok ""
  | _ => Except.error (GoError.msg "cannot unmarshal body into token struct")

/-- `Result.Unmarshal` restricted to the generic decode of `Body`; decoding
into a concrete struct composes this with the struct's field extraction
(e.g. `decodeTokenData`).  Go's `unmarshal(nil, v)` fails, hence the error
on an absent body. -/
def Result.Unmarshal (r : Result β) : Except GoError Json :=
  match r.Body with
  | some b => r.client.unmarshal b
  | none => Except.error (GoError.msg "unexpected end of JSON input")

/-- `(*Client).Send`: marshal the payload if present (failure produces a
failed sender carrying that error), build the request, and add
`Content-Type: application/json` only for POST.  `http.NewRequest` is
modelled as total: its failure conditions (invalid method characters,
unparseable URL) live in the external net/http library. -/
def Client.Send (c : Client β) (url method : String) (payload : Option Json) : Sender β :=
  match payload with
  | some p =>
    match c.marshal p with
    | Except.error e => { client := c, request := emptyRequest, err := some e }
    | Except.ok bodyBytes =>
      let req : Request β := { method := method, url := url, body := some bodyBytes, headers := [] }
      let req := if method == "POST" then req.headerAdd "Content-Type" "application/json" else req
      { client := c, request := req, err := none }
  | none =>
    let req : Request β := { method := method, url := url, body := none, headers := [] }
    let req := if method == "POST" then req.headerAdd "Content-Type" "application/json" else req
    { client := c, request := req, err := none }

/-- `(*Sender).parse` (only uses the sender's client): generic-decode the
body, extract the envelope struct, and re-marshal the `data` field alone;
each failure yields a `Result` carrying only that error. -/
def parseBody (c : Client β) (body : β) : Result β :=
  match c.unmarshal body with
  | Except.error e => { client := c, Err := some e }
  | Except.ok j =>
    match decodeEnvelope j with
    | Except.error e => { client := c, Err := some e }
    | Except.ok env =>
      match c.marshal env.data with
      | Except.error e => { client := c, Err := some e }
      | Except.ok dataBody =>
        { client := c, Code := env.code, Msg := env.msg, Body := some dataBody, Err := none }

/-- `(*Sender).parse`. -/
def Sender.parse (s : Sender β) (body : β) : Result β := parseBody s.client body

/-- The outcome of one HTTP round trip (`client.Do` plus reading the body):
either a transport error, or an HTTP status together with the body read
(which may itself fail). -/
inductive HttpOutcome (β : Type) where
  | transportErr (e : GoError) : HttpOutcome β
  | response (status : Int) (bodyRead : Except GoError β) : HttpOutcome β

/-- Observable events of one call: an HTTP dispatch (recording the full
request, headers included), a `time.Sleep` of `d` seconds, and an entry
into `applyToken` (one credential refresh). -/
inductive Event (β : Type) where
  | dispatch (req : Request β) : Event β
  | sleep (d : Int) : Event β
  | refreshCall : Event β

/-- Execution state threaded through the pipeline: how many dispatches have
consumed the oracle, and the trace of events so far. -/
structure St (β : Type) where
  used : Nat
  trace : List (Event β)

/-- The initial state of a run. -/
def St.init : St β := { used := 0, trace := [] }

/-- Record a dispatch: consumes the next oracle entry. -/
def St.dispatchRec (st : St β) (r : Request β) : St β :=
  { used := st.used + 1, trace := st.trace ++ [Event.dispatch r] }

/-- Record a `time.Sleep` of `d` seconds. -/
def St.sleepRec (st : St β) (d : Int) : St β :=
  { st with trace := st.trace ++ [Event.sleep d] }

/-- Record an `applyToken` invocation. -/
def St.refreshRec (st : St β) : St β :=
  { st with trace := st.trace ++ [Event.refreshCall] }

/-- Sleep durations appearing in a trace, in order. -/
def sleepDurations (tr : List (Event β)) : List Int :=
  tr.filterMap (fun e => match e with | Event.sleep d => some d | _ => none)

/-- Dispatched requests appearing in a trace, in order. -/
def dispatchedRequests (tr : List (Event β)) : List (Request β) :=
  tr.filterMap (fun e => match e with | Event.dispatch r => some r | _ => none)

/-- Number of HTTP round trips in a trace. -/
def dispatchCount (tr : List (Event β)) : Nat := (dispatchedRequests tr).length

/-- Number of `applyToken` invocations in a trace. -/
def refreshCount (tr : List (Event β)) : Nat :=
  (tr.filter (fun e => match e with | Event.refreshCall => true | _ => false)).length

/-- Classification of one attempt, shared verbatim between `WithToken` and
`WithKey` (the two loop bodies are identical here): transport errors,
non-200 HTTP statuses, body-read failures and bodies whose generic decode
fails (the `bodyRaw` unmarshal guarding the debug log) all `return nil`,
i.e. retry; a parsed code of 801 takes the auth-expiry branch; anything
else returns the parsed result as-is.  Note the order: the `bodyRaw`
unmarshal is checked before `parsed.Code`, so a body that decodes
generically but not as an envelope falls through to `finished` carrying the
parse error with `Code = 0`. -/
inductive Classified (β : Type) where
  | retry : Classified β
  | retry801 : Classified β
  | finished (r : Result β) : Classified β

/-- See `Classified`. -/
def classify (c : Client β) (o : HttpOutcome β) : Classified β :=
  match o with
  | HttpOutcome.transportErr _ => Classified.retry
  | HttpOutcome.response status bodyRead =>
    if status != 200 then Classified.retry
    else
      match bodyRead with
      | Except.error _ => Classified.retry
      | Except.ok body =>
        match c.unmarshal body with
        | Except.error _ => Classified.retry
        | Except.ok _ =>
          if (parseBody c body).Code == 801 then Classified.retry801
          else Classified.finished (parseBody c body)

/-- The `// Wait before retrying` block at the bottom of both loops: when
this was not the last attempt (`attempt < maxRetries-1`, i.e. `rem ≠ 0`
attempts remain), sleep the current delay and double it if exponential
backoff is enabled. -/
def outerWait (c : Client β) (d : Int) (rem : Nat) (st : St β) : St β × Int :=
  match rem with
  | 0 => (st, d)
  | Nat.succ _ => (st.sleepRec d, if c.exponentialBackoff then d * 2 else d)

/-- The `for attempt := 0; attempt < maxRetries; attempt++` loop of
`WithKey`, with `fuel` the number of attempts left.  Each attempt `Add`s
the `Basic` Authorization and User-Agent headers onto the same request
(headers accumulate across attempts), dispatches, and classifies; an 801
sleeps the current delay and doubles it (no refresh in key mode) before
falling into the shared wait block. -/
def withKeyLoop (oracle : Nat → HttpOutcome β) (c : Client β) (req : Request β)
    (d : Int) (fuel : Nat) (st : St β) : St β × Result β :=
  match fuel with
  | 0 => (st, { client := c, Err := some (GoError.retriesExhausted c.maxRetries) })
  | Nat.succ rem =>
    let req1 := (req.headerAdd "Authorization"
      ("Basic " ++ c.secretID ++ ":" ++ c.secretKey)).headerAdd "User-Agent" UserAgent
    let st1 := st.dispatchRec req1
    match classify c (oracle st.used) with
    | Classified.finished r => (st1, r)
    | Classified.retry =>
      let w := outerWait c d rem st1
      withKeyLoop oracle c req1 w.2 rem w.1
    | Classified.retry801 =>
      let st2 := st1.sleepRec d
      let d1 := if c.exponentialBackoff then d * 2 else d
      let w := outerWait c d1 rem st2
      withKeyLoop oracle c req1 w.2 rem w.1

/-- `(*Sender).WithKey`: a sender already carrying a construction error
short-circuits; otherwise the retry loop runs with the delay counter copied
from the client's base retry delay and `maxRetries` attempts of fuel. -/
def Sender.WithKey (oracle : Nat → HttpOutcome β) (s : Sender β) (st : St β) :
    St β × Result β :=
  match s.err with
  | some e => (st, { client := s.client, Err := some e })
  | none => withKeyLoop oracle s.client s.request s.client.retryDelay s.client.maxRetries.toNat st

/-- Outcome of `applyToken`: the Go function either returns an error,
returns nil having stored the new token (`renewed` carries the updated
client), or — on the token-data unmarshal error path — panics, because the
error log interpolates `result.Err.Error()` at a point where `result.Err`
is necessarily nil. -/
inductive ATOutcome (β : Type) where
  | panicked (m : String) : ATOutcome β
  | failed (e : GoError) : ATOutcome β
  | renewed (c : Client β) : ATOutcome β

/-- `applyToken`: GET `<endpoint>/openAPI/token` via `Send(...).WithKey()`;
propagate a sender/loop error; reject a non-200 upstream code with a
descriptive error; decode `{token: string}` from the result body and store
it.  On an unmarshal failure the Go code evaluates
`fmt.Sprintf(..., result.Err.Error())` while `result.Err` is nil (both the
`result.Err != nil` and `!result.OK()` guards have already passed), a nil
pointer dereference. -/
def applyToken (oracle : Nat → HttpOutcome β) (c : Client β) (st : St β) :
    St β × ATOutcome β :=
  let st0 := st.refreshRec
  let s := c.Send (c.endpoint ++ "/openAPI/token") "GET" none
  let out := s.WithKey oracle st0
  match out.2.Err with
  | some e => (out.1, ATOutcome.failed e)
  | none =>
    if !out.2.OK then
      (out.1, ATOutcome.failed (GoError.tokenUpstreamFailed out.2.Code out.2.Msg))
    else
      match out.2.Unmarshal with
      | Except.error _ =>
        (out.1, ATOutcome.panicked "runtime error: invalid memory address or nil pointer dereference")
      | Except.ok j =>
        match decodeTokenData j with
        | Except.error _ =>
          (out.1, ATOutcome.panicked "runtime error: invalid memory address or nil pointer dereference")
        | Except.ok tok => (out.1, ATOutcome.renewed { c with token := tok })

/-- Outcome of `WithToken` (or of `NewClient`): a result, or a panic
propagated out of `applyToken`. -/
inductive CallOutcome (β : Type) where
  | panicked (m : String) : CallOutcome β
  | done (r : Result β) : CallOutcome β

/-- The result of a non-panicking call, if any. -/
def CallOutcome.toResult : CallOutcome β → Option (Result β)
  | CallOutcome.panicked _ => none
  | CallOutcome.done r => some r

/-- The retry loop of `WithToken`.  Identical to `withKeyLoop` except that
the Authorization header is `Bearer <token>` read from the current client
(which `applyToken` may have replaced) and that the 801 branch, after
sleeping the current delay and doubling it, calls `applyToken`: a refresh
error aborts the whole call with that error, a successful refresh `return
nil`s into the shared wait block and the loop continues with the renewed
client. -/
def withTokenLoop (oracle : Nat → HttpOutcome β) (c : Client β) (req : Request β)
    (d : Int) (fuel : Nat) (st : St β) : St β × CallOutcome β :=
  match fuel with
  | 0 => (st, CallOutcome.done { client := c, Err := some (GoError.retriesExhausted c.maxRetries) })
  | Nat.succ rem =>
    let req1 := (req.headerAdd "Authorization"
      ("Bearer " ++ c.token)).headerAdd "User-Agent" UserAgent
    let st1 := st.dispatchRec req1
    match classify c (oracle st.used) with
    | Classified.finished r => (st1, CallOutcome.done r)
    | Classified.retry =>
      let w := outerWait c d rem st1
      withTokenLoop oracle c req1 w.2 rem w.1
    | Classified.retry801 =>
      let st2 := st1.sleepRec d
      let d1 := if c.exponentialBackoff then d * 2 else d
      let at1 := applyToken oracle c st2
      match at1.2 with
      | ATOutcome.panicked m => (at1.1, CallOutcome.panicked m)
      | ATOutcome.failed e => (at1.1, CallOutcome.done { client := c, Err := some e })
      | ATOutcome.renewed c2 =>
        let w := outerWait c2 d1 rem at1.1
        withTokenLoop oracle c2 req1 w.2 rem w.1

/-- `(*Sender).WithToken`: construction-error short-circuit, then the loop
with the delay counter copied from the client's base retry delay. -/
def Sender.WithToken (oracle : Nat → HttpOutcome β) (s : Sender β) (st : St β) :
    St β × CallOutcome β :=
  match s.err with
  | some e => (st, CallOutcome.done { client := s.client, Err := some e })
  | none =>
    withTokenLoop oracle s.client s.request s.client.retryDelay s.client.maxRetries.toNat st

/-- The functional-option type (`Option func(*Client)` in the source; the
name `Option` is taken in Lean). -/
def ClientOption (β : Type) : Type := Client β → Client β

/-- `WithEndpoint`. -/
def WithEndpoint (endpoint : String) : ClientOption β := fun c => { c with endpoint := endpoint }

/-- `WithMarshal`. -/
def WithMarshal (m : Json → Except GoError β) : ClientOption β := fun c => { c with marshal := m }

/-- `WithUnmarshal`. -/
def WithUnmarshal (u : β → Except GoError Json) : ClientOption β := fun c => { c with unmarshal := u }

/-- `WithTimeout`. -/
def WithTimeout (timeout : Int) : ClientOption β := fun c => { c with timeout := timeout }

/-- `WithMaxRetries` — note: no validation of the argument. -/
def WithMaxRetries (maxRetries : Int) : ClientOption β := fun c => { c with maxRetries := maxRetries }

/-- `WithRetryDelay`. -/
def WithRetryDelay (retryDelay : Int) : ClientOption β := fun c => { c with retryDelay := retryDelay }

/-- `WithExponentialBackoff`. -/
def WithExponentialBackoff (b : Bool) : ClientOption β := fun c => { c with exponentialBackoff := b }

/-- `EnableToken`. -/
def EnableToken (b : Bool) : ClientOption β := fun c => { c with enableToken := b }

/-- Outcome of `NewClient`: the constructed client, an error from the eager
token acquisition, or a panic propagated out of `applyToken`. -/
inductive NewClientOutcome (β : Type) where
  | panicked (m : String) : NewClientOutcome β
  | failed (e : GoError) : NewClientOutcome β
  | made (c : Client β) : NewClientOutcome β

/-- The constructed client of a successful `NewClient`, if any. -/
def NewClientOutcome.toClient : NewClientOutcome β → Option (Client β)
  | NewClientOutcome.made c => some c
  | _ => none

/-- `NewClient`: defaults (endpoint, codec, timeout 3, maxRetries 5,
retryDelay 1, exponential backoff on, token auth on), then the options in
order, then the key pair, then — when token auth is enabled — one eager
`applyToken` whose failure fails construction.  `defaultMarshal` and
`defaultUnmarshal` stand for the external default JSON library
(`github.com/ghinknet/json`). -/
def NewClient (oracle : Nat → HttpOutcome β) (defaultMarshal : Json → Except GoError β)
    (defaultUnmarshal : β → Except GoError Json) (secretID secretKey : String)
    (options : List (ClientOption β)) (st : St β) : St β × NewClientOutcome β :=
  let c0 : Client β :=
    { endpoint := Endpoint, secretID := "", secretKey := "", enableToken := true, token := "",
      timeout := 3, maxRetries := 5, retryDelay := 1, exponentialBackoff := true,
      marshal := defaultMarshal, unmarshal := defaultUnmarshal }
  let c1 := options.foldl (fun c f => f c) c0
  let c2 := { c1 with secretID := secretID, secretKey := secretKey }
  if c2.enableToken then
    match applyToken oracle c2 st with
    | (st1, ATOutcome.panicked m) => (st1, NewClientOutcome.panicked m)
    | (st1, ATOutcome.failed e) => (st1, NewClientOutcome.failed e)
    | (st1, ATOutcome.renewed c3) => (st1, NewClientOutcome.made c3)
  else (st, NewClientOutcome.made c2)

/-- Sleep durations produced by a run of `fuel` generically-retryable
attempts starting from delay `d`: one sleep before each attempt after the
first, doubling after each sleep when `b` (exponential backoff) holds. -/
def retryDelaySeq (b : Bool) (d : Int) : Nat → List Int
  | 0 => []
  | Nat.succ n => if n = 0 then [] else d :: retryDelaySeq b (if b then d * 2 else d) n

/-- The configuration portion of a client: everything except the mutable
token and the credentials saved at construction. -/
def Client.configOf (c : Client β) :
    String × Int × Int × Int × Bool × (Json → Except GoError β) × (β → Except GoError Json) :=
  (c.endpoint, c.timeout, c.maxRetries, c.retryDelay, c.exponentialBackoff, c.marshal, c.unmarshal)

/-- Concrete codec instantiation used for evaluating the model: bytes are
`Json` values and the codec is the identity function — a legal pluggable
codec, since the pipeline treats the codec as an opaque pair of functions. -/
def idClient : Client Json :=
  { endpoint := "E", secretID := "sid", secretKey := "sk", enableToken := true, token := "old",
    timeout := 3, maxRetries := 3, retryDelay := 1, exponentialBackoff := true,
    marshal := fun j => Except.ok j, unmarshal := fun j => Except.ok j }

/-- `idClient` after a refresh stored the token `"new"`. -/
def renewedClient : Client Json := { idClient with token := "new" }

/-- A client identical to `idClient` but with exponential backoff disabled. -/
def noBackoffClient : Client Json := { idClient with exponentialBackoff := false }

/-- A client whose marshal always fails (payload-encoding failure). -/
def failMarshalClient : Client Json :=
  { idClient with marshal := fun _ => Except.error (GoError.msg "encode failure") }

/-- The base request `Send("U", "GET", nil)` produces. -/
def baseReq : Request Json := { method := "GET", url := "U", body := none, headers := [] }

/-- A prepared sender for `idClient`. -/
def mainSender : Sender Json := idClient.Send "U" "GET" none

/-- The prepared sender of `noBackoffClient`. -/
def noBackoffSender : Sender Json := noBackoffClient.Send "U" "GET" none

/-- A sender whose payload encoding failed. -/
def failSender : Sender Json := failMarshalClient.Send "U" "POST" (some (Json.bool true))

/-- Upstream envelope with code 801. -/
def env801 : Json :=
  Json.obj [("code", Json.num 801), ("msg", Json.str "denied"), ("data", Json.null)]

/-- Upstream envelope with code 403 (business rejection). -/
def env403 : Json :=
  Json.obj [("code", Json.num 403), ("msg", Json.str "forbidden"), ("data", Json.null)]

/-- Successful token-endpoint envelope carrying token `t`. -/
def tokenEnvelope (t : String) : Json :=
  Json.obj [("code", Json.num 200), ("msg", Json.str "ok"),
    ("data", Json.obj [("token", Json.str t)])]

/-- A plain successful envelope. -/
def okEnvelope : Json :=
  Json.obj [("code", Json.num 200), ("msg", Json.str "ok"), ("data", Json.bool true)]

/-- A body that decodes as generic JSON but fails envelope decoding (the
`code` field is a string). -/
def badEnvelopeBody : Json := Json.obj [("code", Json.str "boom")]

/-- A 200/ok token-endpoint envelope whose `data.token` is not a string. -/
def badTokenEnvelope : Json :=
  Json.obj [("code", Json.num 200), ("msg", Json.str "ok"),
    ("data", Json.obj [("token", Json.num 123)])]

/-- Upstream scenario: first attempt answers 801, the refresh succeeds with
token `"new"`, afterwards everything succeeds. -/
def oracle801ThenRenew : Nat → HttpOutcome Json := fun i =>
  if i == 0 then HttpOutcome.response 200 (Except.ok env801)
  else if i == 1 then HttpOutcome.response 200 (Except.ok (tokenEnvelope "new"))
  else HttpOutcome.response 200 (Except.ok okEnvelope)

/-- Upstream scenario: every attempt answers 200 with `badEnvelopeBody`. -/
def oracleBadEnvelope : Nat → HttpOutcome Json := fun _ =>
  HttpOutcome.response 200 (Except.ok badEnvelopeBody)

/-- Upstream scenario: every attempt fails at the transport layer. -/
def oracleRefused : Nat → HttpOutcome Json := fun _ =>
  HttpOutcome.transportErr (GoError.msg "connection refused")

/-- Upstream scenario: every attempt answers 200/ok with bad token data. -/
def oracleBadTokenData : Nat → HttpOutcome Json := fun _ =>
  HttpOutcome.response 200 (Except.ok badTokenEnvelope)

/-- Upstream scenario: first attempt answers 801, then the network dies, so
the refresh exhausts its own retry loop. -/
def oracle801ThenRefusedRefresh : Nat → HttpOutcome Json := fun i =>
  if i == 0 then HttpOutcome.response 200 (Except.ok env801)
  else HttpOutcome.transportErr (GoError.msg "connection refused")

/-- Upstream scenario: every attempt answers 200 with the 403 envelope. -/
def oracle403 : Nat → HttpOutcome Json := fun _ =>
  HttpOutcome.response 200 (Except.ok env403)

/-- The `WithToken` run of `mainSender` against `oracle801ThenRenew`. -/
def runRenew : St Json × CallOutcome Json := mainSender.WithToken oracle801ThenRenew St.init

/-- The `WithToken` run of `mainSender` against `oracleBadEnvelope`. -/
def runBadEnvelope : St Json × CallOutcome Json := mainSender.WithToken oracleBadEnvelope St.init

/-- First dispatched request of `runRenew`: the base request with the stale
bearer token and the user agent added. -/
def mainReq1 : Request Json :=
  { method := "GET", url := "U", body := none,
    headers := [("Authorization", "Bearer old"), ("User-Agent", UserAgent)] }

/-- The token-endpoint request dispatched by the refresh inside `runRenew`. -/
def tokenReq1 : Request Json :=
  { method := "GET", url := "E/openAPI/token", body := none,
    headers := [("Authorization", "Basic sid:sk"), ("User-Agent", UserAgent)] }

/-- Second main-loop request of `runRenew`: `Header.Add` appended the new
bearer token and another user agent to the same request. -/
def mainReq2 : Request Json :=
  { method := "GET", url := "U", body := none,
    headers := [("Authorization", "Bearer old"), ("User-Agent", UserAgent),
      ("Authorization", "Bearer new"), ("User-Agent", UserAgent)] }

end Model

section Lemmas

variable {β : Type}

@[simp] lemma St.used_init : (St.init : St β).used = 0 := rfl

@[simp] lemma St.trace_init : (St.init : St β).trace = [] := rfl

@[simp] lemma St.trace_dispatchRec (st : St β) (r : Request β) :
    (st.dispatchRec r).trace = st.trace ++ [Event.dispatch r] := rfl

@[simp] lemma St.used_dispatchRec (st : St β) (r : Request β) :
    (st.dispatchRec r).used = st.used + 1 := rfl

@[simp] lemma St.trace_sleepRec (st : St β) (d : Int) :
    (st.sleepRec d).trace = st.trace ++ [Event.sleep d] := rfl

@[simp] lemma St.used_sleepRec (st : St β) (d : Int) :
    (st.sleepRec d).used = st.used := rfl

@[simp] lemma St.trace_refreshRec (st : St β) :
    st.refreshRec.trace = st.trace ++ [Event.refreshCall] := rfl

@[simp] lemma St.used_refreshRec (st : St β) :
    st.refreshRec.used = st.used := rfl

@[simp] lemma sleepDurations_nil : sleepDurations ([] : List (Event β)) = [] := rfl

@[simp] lemma sleepDurations_cons_dispatch (r : Request β) (tr : List (Event β)) :
    sleepDurations (Event.dispatch r :: tr) = sleepDurations tr := rfl

@[simp] lemma sleepDurations_cons_sleep (d : Int) (tr : List (Event β)) :
    sleepDurations (Event.sleep d :: tr) = d :: sleepDurations tr := rfl

@[simp] lemma sleepDurations_cons_refresh (tr : List (Event β)) :
    sleepDurations (Event.refreshCall :: tr) = sleepDurations tr := rfl

@[simp] lemma dispatchedRequests_cons_dispatch (r : Request β) (tr : List (Event β)) :
    dispatchedRequests (Event.dispatch r :: tr) = r :: dispatchedRequests tr := rfl

@[simp] lemma dispatchedRequests_cons_sleep (d : Int) (tr : List (Event β)) :
    dispatchedRequests (Event.sleep d :: tr) = dispatchedRequests tr := rfl

@[simp] lemma dispatchedRequests_cons_refresh (tr : List (Event β)) :
    dispatchedRequests (Event.refreshCall :: tr) = dispatchedRequests tr := rfl

@[simp] lemma dispatchCount_cons_dispatch (r : Request β) (tr : List (Event β)) :
    dispatchCount (Event.dispatch r :: tr) = dispatchCount tr + 1 := by
  simp [dispatchCount, Nat.add_comm]

@[simp] lemma dispatchCount_cons_sleep (d : Int) (tr : List (Event β)) :
    dispatchCount (Event.sleep d :: tr) = dispatchCount tr := rfl

@[simp] lemma dispatchCount_cons_refresh (tr : List (Event β)) :
    dispatchCount (Event.refreshCall :: tr) = dispatchCount tr := rfl

@[simp] lemma refreshCount_cons_dispatch (r : Request β) (tr : List (Event β)) :
    refreshCount (Event.dispatch r :: tr) = refreshCount tr := rfl

@[simp] lemma refreshCount_cons_sleep (d : Int) (tr : List (Event β)) :
    refreshCount (Event.sleep d :: tr) = refreshCount tr := rfl

@[simp] lemma refreshCount_cons_refresh (tr : List (Event β)) :
    refreshCount (Event.refreshCall :: tr) = refreshCount tr + 1 := by
  simp [refreshCount, List.filter, Nat.add_comm]

@[simp] lemma sleepDurations_append (a b : List (Event β)) :
    sleepDurations (a ++ b) = sleepDurations a ++ sleepDurations b := by
  simp [sleepDurations]

@[simp] lemma sleepDurations_dispatch (r : Request β) :
    sleepDurations [Event.dispatch r] = [] := rfl

@[simp] lemma sleepDurations_sleep (d : Int) :
    sleepDurations [Event.sleep (β := β) d] = [d] := rfl

@[simp] lemma sleepDurations_refresh :
    sleepDurations [Event.refreshCall (β := β)] = [] := rfl

@[simp] lemma dispatchedRequests_nil : dispatchedRequests ([] : List (Event β)) = [] := rfl

@[simp] lemma dispatchedRequests_append (a b : List (Event β)) :
    dispatchedRequests (a ++ b) = dispatchedRequests a ++ dispatchedRequests b := by
  simp [dispatchedRequests]

@[simp] lemma dispatchedRequests_dispatch (r : Request β) :
    dispatchedRequests [Event.dispatch r] = [r] := rfl

@[simp] lemma dispatchedRequests_sleep (d : Int) :
    dispatchedRequests [Event.sleep (β := β) d] = [] := rfl

@[simp] lemma dispatchedRequests_refresh :
    dispatchedRequests [Event.refreshCall (β := β)] = [] := rfl

@[simp] lemma dispatchCount_nil : dispatchCount ([] : List (Event β)) = 0 := rfl

@[simp] lemma dispatchCount_append (a b : List (Event β)) :
    dispatchCount (a ++ b) = dispatchCount a + dispatchCount b := by
  simp [dispatchCount]

@[simp] lemma dispatchCount_dispatch (r : Request β) :
    dispatchCount [Event.dispatch r] = 1 := rfl

@[simp] lemma dispatchCount_sleep (d : Int) :
    dispatchCount [Event.sleep (β := β) d] = 0 := rfl

@[simp] lemma dispatchCount_refresh :
    dispatchCount [Event.refreshCall (β := β)] = 0 := rfl

@[simp] lemma refreshCount_nil : refreshCount ([] : List (Event β)) = 0 := rfl

@[simp] lemma refreshCount_append (a b : List (Event β)) :
    refreshCount (a ++ b) = refreshCount a + refreshCount b := by
  simp [refreshCount]

@[simp] lemma refreshCount_dispatch (r : Request β) :
    refreshCount [Event.dispatch r] = 0 := rfl

@[simp] lemma refreshCount_sleep (d : Int) :
    refreshCount [Event.sleep (β := β) d] = 0 := rfl

@[simp] lemma refreshCount_refresh :
    refreshCount [Event.refreshCall (β := β)] = 1 := rfl

@[simp] lemma headerValues_headerAdd_self (r : Request β) (k v : String) :
    (r.headerAdd k v).headerValues k = r.headerValues k ++ [v] := by
  simp [Request.headerAdd, Request.headerValues]

lemma headerValues_headerAdd_ne (r : Request β) (k k' v : String) (h : k' ≠ k) :
    (r.headerAdd k' v).headerValues k = r.headerValues k := by
  simp [Request.headerAdd, Request.headerValues, h]

/-- Every `Result` built by `parse` carries the sender's client. -/
lemma parseBody_client (c : Client β) (b : β) : (parseBody c b).client = c := by
  unfold parseBody
  split
  · rfl
  · split
    · rfl
    · split <;> rfl

/-- `classify` only reaches `finished` through `parse`, so a finished
result carries the attempt's client. -/
lemma classify_finished_client (c : Client β) (o : HttpOutcome β) (r : Result β)
    (h : classify c o = Classified.finished r) : r.client = c := by
  unfold classify at h
  split at h
  · exact absurd h (by simp)
  · split at h
    · exact absurd h (by simp)
    · split at h
      · exact absurd h (by simp)
      · split at h
        · exact absurd h (by simp)
        · split at h
          · exact absurd h (by simp)
          · rw [show r = parseBody c _ by injection h with h2; exact h2.symm]
            exact parseBody_client ..

/-- The classification of a 200-status attempt whose body parses with code
801 is `retry801` (the parse succeeding with code 801 forces the generic
`bodyRaw` decode to succeed as well). -/
lemma classify_eq_retry801 (c : Client β) (o : HttpOutcome β) (b : β)
    (h0 : o = HttpOutcome.response 200 (Except.ok b))
    (h801 : (parseBody c b).Code = 801) :
    classify c o = Classified.retry801 := by
  subst h0
  have hu : ∃ j, c.unmarshal b = Except.ok j := by
    cases hu : c.unmarshal b with
    | error e =>
      exfalso
      rw [parseBody, hu] at h801
      simp at h801
    | ok j => exact ⟨j, rfl⟩
  obtain ⟨j, hj⟩ := hu
  simp [classify, hj, h801]

/-- The classification of a 200-status attempt whose body parses with a
code other than 801 and without decoding error is `finished` with the parse
result. -/
lemma classify_eq_finished (c : Client β) (o : HttpOutcome β) (b : β)
    (h0 : o = HttpOutcome.response 200 (Except.ok b))
    (hErr : (parseBody c b).Err = none)
    (h801 : (parseBody c b).Code ≠ 801) :
    classify c o = Classified.finished (parseBody c b) := by
  subst h0
  have hu : ∃ j, c.unmarshal b = Except.ok j := by
    cases hu : c.unmarshal b with
    | error e =>
      exfalso
      rw [parseBody, hu] at hErr
      simp at hErr
    | ok j => exact ⟨j, rfl⟩
  obtain ⟨j, hj⟩ := hu
  simp [classify, hj, h801]

lemma retryDelaySeq_succ_succ (b : Bool) (d : Int) (k : Nat) :
    retryDelaySeq b d (k + 2) = d :: retryDelaySeq b (if b then d * 2 else d) (k + 1) := by
  rw [retryDelaySeq, if_neg (Nat.succ_ne_zero k)]

lemma retryDelaySeq_length (b : Bool) : ∀ (n : Nat) (d : Int),
    (retryDelaySeq b d n).length = n - 1 := by
  intro n
  induction n with
  | zero => intro d; simp [retryDelaySeq]
  | succ m ih =>
    intro d
    cases m with
    | zero => simp [retryDelaySeq]
    | succ k =>
      rw [retryDelaySeq, if_neg (Nat.succ_ne_zero k), List.length_cons, ih]
      omega

/-- With exponential backoff enabled, the `k`-th slept delay (0-indexed) is
`d * 2 ^ k`. -/
lemma retryDelaySeq_true : ∀ (n : Nat) (d : Int),
    retryDelaySeq true d n = (List.range (n - 1)).map (fun k => d * 2 ^ k) := by
  intro n
  induction n with
  | zero => intro d; simp [retryDelaySeq]
  | succ m ih =>
    intro d
    cases m with
    | zero => simp [retryDelaySeq]
    | succ k =>
      rw [retryDelaySeq, if_neg (Nat.succ_ne_zero k)]
      simp only [if_true, ih, Nat.succ_sub_one, List.range_succ_eq_map, List.map_cons,
        List.map_map, pow_zero, mul_one]
      congr 1
      apply List.map_congr_left
      intro j _
      simp only [Function.comp_apply, pow_succ]
      ring

/-- With exponential backoff disabled, every slept delay equals `d`. -/
lemma retryDelaySeq_false : ∀ (n : Nat) (d : Int),
    retryDelaySeq false d n = List.replicate (n - 1) d := by
  intro n
  induction n with
  | zero => intro d; simp [retryDelaySeq]
  | succ m ih =>
    intro d
    cases m with
    | zero => simp [retryDelaySeq]
    | succ k =>
      rw [retryDelaySeq, if_neg (Nat.succ_ne_zero k)]
      simp [ih, List.replicate_succ]

/-- A `WithKey` loop whose every attempt classifies as generically
retryable performs exactly `fuel` dispatches, sleeps `retryDelaySeq`, never
refreshes, and ends in the retry-exhaustion error. -/
lemma withKeyLoop_retry_run (oracle : Nat → HttpOutcome β) (c : Client β)
    (h : ∀ i, classify c (oracle i) = Classified.retry) :
    ∀ (fuel : Nat) (req : Request β) (d : Int) (st : St β),
      sleepDurations ((withKeyLoop oracle c req d fuel st).1.trace)
          = sleepDurations st.trace ++ retryDelaySeq c.exponentialBackoff d fuel
        ∧ dispatchCount ((withKeyLoop oracle c req d fuel st).1.trace)
          = dispatchCount st.trace + fuel
        ∧ refreshCount ((withKeyLoop oracle c req d fuel st).1.trace)
          = refreshCount st.trace
        ∧ (withKeyLoop oracle c req d fuel st).2
          = { client := c, Err := some (GoError.retriesExhausted c.maxRetries) } := by
  intro fuel
  induction fuel with
  | zero =>
    intro req d st
    simp [withKeyLoop, retryDelaySeq]
  | succ rem ih =>
    intro req d st
    cases rem with
    | zero =>
      have h4 := ih ((req.headerAdd "Authorization"
        ("Basic " ++ c.secretID ++ ":" ++ c.secretKey)).headerAdd "User-Agent" UserAgent)
        d (st.dispatchRec ((req.headerAdd "Authorization"
        ("Basic " ++ c.secretID ++ ":" ++ c.secretKey)).headerAdd "User-Agent" UserAgent))
      rw [withKeyLoop, h]
      simp only [outerWait]
      obtain ⟨g1, g2, g3, g4⟩ := h4
      refine ⟨?_, ?_, ?_, g4⟩
      · rw [g1]; simp [retryDelaySeq]
      · rw [g2]; simp
      · rw [g3]; simp
    | succ k =>
      have h4 := ih ((req.headerAdd "Authorization"
        ("Basic " ++ c.secretID ++ ":" ++ c.secretKey)).headerAdd "User-Agent" UserAgent)
        (if c.exponentialBackoff then d * 2 else d)
        ((st.dispatchRec ((req.headerAdd "Authorization"
        ("Basic " ++ c.secretID ++ ":" ++ c.secretKey)).headerAdd "User-Agent" UserAgent)).sleepRec d)
      rw [withKeyLoop, h]
      simp only [outerWait]
      obtain ⟨g1, g2, g3, g4⟩ := h4
      refine ⟨?_, ?_, ?_, g4⟩
      · rw [g1, retryDelaySeq_succ_succ]; simp
      · rw [g2]; simp; omega
      · rw [g3]; simp

/-- Same as `withKeyLoop_retry_run` for the `WithToken` loop: generically
retryable attempts never reach the 801 branch, so no refresh happens. -/
lemma withTokenLoop_retry_run (oracle : Nat → HttpOutcome β) (c : Client β)
    (h : ∀ i, classify c (oracle i) = Classified.retry) :
    ∀ (fuel : Nat) (req : Request β) (d : Int) (st : St β),
      sleepDurations ((withTokenLoop oracle c req d fuel st).1.trace)
          = sleepDurations st.trace ++ retryDelaySeq c.exponentialBackoff d fuel
        ∧ dispatchCount ((withTokenLoop oracle c req d fuel st).1.trace)
          = dispatchCount st.trace + fuel
        ∧ refreshCount ((withTokenLoop oracle c req d fuel st).1.trace)
          = refreshCount st.trace
        ∧ (withTokenLoop oracle c req d fuel st).2
          = CallOutcome.done { client := c, Err := some (GoError.retriesExhausted c.maxRetries) } := by
  intro fuel
  induction fuel with
  | zero =>
    intro req d st
    simp [withTokenLoop, retryDelaySeq]
  | succ rem ih =>
    intro req d st
    cases rem with
    | zero =>
      have h4 := ih ((req.headerAdd "Authorization"
        ("Bearer " ++ c.token)).headerAdd "User-Agent" UserAgent)
        d (st.dispatchRec ((req.headerAdd "Authorization"
        ("Bearer " ++ c.token)).headerAdd "User-Agent" UserAgent))
      rw [withTokenLoop, h]
      simp only [outerWait]
      obtain ⟨g1, g2, g3, g4⟩ := h4
      refine ⟨?_, ?_, ?_, g4⟩
      · rw [g1]; simp [retryDelaySeq]
      · rw [g2]; simp
      · rw [g3]; simp
    | succ k =>
      have h4 := ih ((req.headerAdd "Authorization"
        ("Bearer " ++ c.token)).headerAdd "User-Agent" UserAgent)
        (if c.exponentialBackoff then d * 2 else d)
        ((st.dispatchRec ((req.headerAdd "Authorization"
        ("Bearer " ++ c.token)).headerAdd "User-Agent" UserAgent)).sleepRec d)
      rw [withTokenLoop, h]
      simp only [outerWait]
      obtain ⟨g1, g2, g3, g4⟩ := h4
      refine ⟨?_, ?_, ?_, g4⟩
      · rw [g1, retryDelaySeq_succ_succ]; simp
      · rw [g2]; simp; omega
      · rw [g3]; simp

@[simp] lemma outerWait_used (c : Client β) (d : Int) (rem : Nat) (st : St β) :
    (outerWait c d rem st).1.used = st.used := by
  cases rem <;> rfl

lemma outerWait_trace (c : Client β) (d : Int) (rem : Nat) (st : St β) :
    ∃ tr2, (outerWait c d rem st).1.trace = st.trace ++ tr2 := by
  cases rem with
  | zero => exact ⟨[], by simp [outerWait]⟩
  | succ k => exact ⟨[Event.sleep d], by simp [outerWait]⟩

@[simp] lemma outerWait_dispatchCount (c : Client β) (d : Int) (rem : Nat) (st : St β) :
    dispatchCount (outerWait c d rem st).1.trace = dispatchCount st.trace := by
  cases rem <;> simp [outerWait]

@[simp] lemma outerWait_refreshCount (c : Client β) (d : Int) (rem : Nat) (st : St β) :
    refreshCount (outerWait c d rem st).1.trace = refreshCount st.trace := by
  cases rem <;> simp [outerWait]

/-- A `WithKey` loop only appends to the trace. -/
lemma withKeyLoop_trace_mono (oracle : Nat → HttpOutcome β) (c : Client β) :
    ∀ (fuel : Nat) (req : Request β) (d : Int) (st : St β),
      ∃ rest, (withKeyLoop oracle c req d fuel st).1.trace = st.trace ++ rest := by
  intro fuel
  induction fuel with
  | zero => intro req d st; exact ⟨[], by simp [withKeyLoop]⟩
  | succ rem ih =>
    intro req d st
    rw [withKeyLoop]
    generalize (req.headerAdd "Authorization"
      ("Basic " ++ c.secretID ++ ":" ++ c.secretKey)).headerAdd "User-Agent" UserAgent = req1
    rcases hcl : classify c (oracle st.used) with _ | _ | r <;> simp only []
    · obtain ⟨t1, h1⟩ := outerWait_trace c d rem (st.dispatchRec req1)
      obtain ⟨t2, h2⟩ := ih req1 (outerWait c d rem (st.dispatchRec req1)).2
        (outerWait c d rem (st.dispatchRec req1)).1
      refine ⟨Event.dispatch req1 :: (t1 ++ t2), ?_⟩
      rw [h2, h1]
      simp
    · obtain ⟨t1, h1⟩ := outerWait_trace c (if c.exponentialBackoff then d * 2 else d) rem
        ((st.dispatchRec req1).sleepRec d)
      obtain ⟨t2, h2⟩ := ih req1
        (outerWait c (if c.exponentialBackoff then d * 2 else d) rem
          ((st.dispatchRec req1).sleepRec d)).2
        (outerWait c (if c.exponentialBackoff then d * 2 else d) rem
          ((st.dispatchRec req1).sleepRec d)).1
      refine ⟨Event.dispatch req1 :: Event.sleep d :: (t1 ++ t2), ?_⟩
      rw [h2, h1]
      simp
    · exact ⟨[Event.dispatch req1], by simp⟩

/-- A `WithKey` loop never calls `applyToken`, so it never changes the
refresh count. -/
lemma withKeyLoop_refreshCount (oracle : Nat → HttpOutcome β) (c : Client β) :
    ∀ (fuel : Nat) (req : Request β) (d : Int) (st : St β),
      refreshCount ((withKeyLoop oracle c req d fuel st).1.trace) = refreshCount st.trace := by
  intro fuel
  induction fuel with
  | zero => intro req d st; simp [withKeyLoop]
  | succ rem ih =>
    intro req d st
    rw [withKeyLoop]
    generalize (req.headerAdd "Authorization"
      ("Basic " ++ c.secretID ++ ":" ++ c.secretKey)).headerAdd "User-Agent" UserAgent = req1
    rcases hcl : classify c (oracle st.used) with _ | _ | r <;> simp only []
    · rw [ih]; simp
    · rw [ih]; simp
    · simp

/-- A `WithKey` loop dispatches at most `fuel` requests. -/
lemma withKeyLoop_dispatchCount_le (oracle : Nat → HttpOutcome β) (c : Client β) :
    ∀ (fuel : Nat) (req : Request β) (d : Int) (st : St β),
      dispatchCount ((withKeyLoop oracle c req d fuel st).1.trace)
        ≤ dispatchCount st.trace + fuel := by
  intro fuel
  induction fuel with
  | zero => intro req d st; simp [withKeyLoop]
  | succ rem ih =>
    intro req d st
    rw [withKeyLoop]
    generalize (req.headerAdd "Authorization"
      ("Basic " ++ c.secretID ++ ":" ++ c.secretKey)).headerAdd "User-Agent" UserAgent = req1
    rcases hcl : classify c (oracle st.used) with _ | _ | r <;> simp only []
    · refine le_trans (ih req1 (outerWait c d rem (st.dispatchRec req1)).2
        (outerWait c d rem (st.dispatchRec req1)).1) ?_
      have hw : dispatchCount (outerWait c d rem (st.dispatchRec req1)).1.trace
          = dispatchCount st.trace + 1 := by simp
      omega
    · refine le_trans (ih req1
        (outerWait c (if c.exponentialBackoff then d * 2 else d) rem
          ((st.dispatchRec req1).sleepRec d)).2
        (outerWait c (if c.exponentialBackoff then d * 2 else d) rem
          ((st.dispatchRec req1).sleepRec d)).1) ?_
      have hw : dispatchCount (outerWait c (if c.exponentialBackoff then d * 2 else d) rem
          ((st.dispatchRec req1).sleepRec d)).1.trace = dispatchCount st.trace + 1 := by simp
      omega
    · have hw : dispatchCount (st.dispatchRec req1).trace = dispatchCount st.trace + 1 := by simp
      omega

/-- The state returned by `applyToken` is, on every outcome, the state of
its inner `Send(...).WithKey()` run started after the refresh marker. -/
lemma applyToken_fst (oracle : Nat → HttpOutcome β) (c : Client β) (st : St β) :
    (applyToken oracle c st).1
      = ((c.Send (c.endpoint ++ "/openAPI/token") "GET" none).WithKey oracle st.refreshRec).1 := by
  unfold applyToken
  simp only []
  split
  · rfl
  · split
    · rfl
    · split
      · rfl
      · split <;> rfl

/-- The token-endpoint sender is error-free, so its `WithKey` is the loop. -/
lemma sendTokenRequest_withKey (oracle : Nat → HttpOutcome β) (c : Client β) (st : St β) :
    (c.Send (c.endpoint ++ "/openAPI/token") "GET" none).WithKey oracle st
      = withKeyLoop oracle c
          { method := "GET", url := c.endpoint ++ "/openAPI/token", body := none, headers := [] }
          c.retryDelay c.maxRetries.toNat st := by
  rfl

/-- Every `applyToken` call contributes exactly one refresh event. -/
lemma applyToken_refreshCount (oracle : Nat → HttpOutcome β) (c : Client β) (st : St β) :
    refreshCount ((applyToken oracle c st).1.trace) = refreshCount st.trace + 1 := by
  rw [applyToken_fst, sendTokenRequest_withKey, withKeyLoop_refreshCount]
  simp

/-- An `applyToken` call dispatches at most `maxRetries` requests (its
inner `WithKey` runs its own complete retry loop). -/
lemma applyToken_dispatchCount_le (oracle : Nat → HttpOutcome β) (c : Client β) (st : St β) :
    dispatchCount ((applyToken oracle c st).1.trace)
      ≤ dispatchCount st.trace + c.maxRetries.toNat := by
  rw [applyToken_fst, sendTokenRequest_withKey]
  refine le_trans (withKeyLoop_dispatchCount_le _ _ _ _ _ _) ?_
  simp

/-- `applyToken` only appends to the trace, starting with its refresh marker. -/
lemma applyToken_trace_mono (oracle : Nat → HttpOutcome β) (c : Client β) (st : St β) :
    ∃ rest, (applyToken oracle c st).1.trace = st.trace ++ Event.refreshCall :: rest := by
  rw [applyToken_fst, sendTokenRequest_withKey]
  obtain ⟨rest, h⟩ := withKeyLoop_trace_mono oracle c c.maxRetries.toNat
    { method := "GET", url := c.endpoint ++ "/openAPI/token", body := none, headers := [] }
    c.retryDelay st.refreshRec
  exact ⟨rest, by rw [h]; simp⟩

/-- A successful `applyToken` replaces only the token field of the client. -/
lemma applyToken_renewed_shape (oracle : Nat → HttpOutcome β) (c : Client β) (st : St β)
    (c2 : Client β) (h : (applyToken oracle c st).2 = ATOutcome.renewed c2) :
    ∃ t, c2 = { c with token := t } := by
  unfold applyToken at h
  simp only [] at h
  split at h
  · exact absurd h (by simp)
  · split at h
    · exact absurd h (by simp)
    · split at h
      · exact absurd h (by simp)
      · split at h
        · exact absurd h (by simp)
        · simp only [] at h
          injection h with h2
          exact ⟨_, h2.symm⟩

/-- A `WithToken` loop only appends to the trace. -/
lemma withTokenLoop_trace_mono (oracle : Nat → HttpOutcome β) :
    ∀ (fuel : Nat) (c : Client β) (req : Request β) (d : Int) (st : St β),
      ∃ rest, (withTokenLoop oracle c req d fuel st).1.trace = st.trace ++ rest := by
  intro fuel
  induction fuel with
  | zero => intro c req d st; exact ⟨[], by simp [withTokenLoop]⟩
  | succ rem ih =>
    intro c req d st
    rw [withTokenLoop]
    generalize (req.headerAdd "Authorization"
      ("Bearer " ++ c.token)).headerAdd "User-Agent" UserAgent = req1
    rcases hcl : classify c (oracle st.used) with _ | _ | r <;> simp only []
    · obtain ⟨t1, h1⟩ := outerWait_trace c d rem (st.dispatchRec req1)
      obtain ⟨t2, h2⟩ := ih c req1 (outerWait c d rem (st.dispatchRec req1)).2
        (outerWait c d rem (st.dispatchRec req1)).1
      refine ⟨Event.dispatch req1 :: (t1 ++ t2), ?_⟩
      rw [h2, h1]
      simp
    · rcases hA : (applyToken oracle c ((st.dispatchRec req1).sleepRec d)).2 with m | e | c2 <;>
        simp only []
      · obtain ⟨t1, h1⟩ := applyToken_trace_mono oracle c ((st.dispatchRec req1).sleepRec d)
        exact ⟨Event.dispatch req1 :: Event.sleep d :: Event.refreshCall :: t1, by rw [h1]; simp⟩
      · obtain ⟨t1, h1⟩ := applyToken_trace_mono oracle c ((st.dispatchRec req1).sleepRec d)
        exact ⟨Event.dispatch req1 :: Event.sleep d :: Event.refreshCall :: t1, by rw [h1]; simp⟩
      · obtain ⟨t1, h1⟩ := applyToken_trace_mono oracle c ((st.dispatchRec req1).sleepRec d)
        obtain ⟨t2, h2⟩ := outerWait_trace c2 (if c.exponentialBackoff then d * 2 else d) rem
          (applyToken oracle c ((st.dispatchRec req1).sleepRec d)).1
        obtain ⟨t3, h3⟩ := ih c2 req1
          (outerWait c2 (if c.exponentialBackoff then d * 2 else d) rem
            (applyToken oracle c ((st.dispatchRec req1).sleepRec d)).1).2
          (outerWait c2 (if c.exponentialBackoff then d * 2 else d) rem
            (applyToken oracle c ((st.dispatchRec req1).sleepRec d)).1).1
        refine ⟨Event.dispatch req1 :: Event.sleep d :: Event.refreshCall :: (t1 ++ t2 ++ t3), ?_⟩
        rw [h3, h2, h1]
        simp
    · exact ⟨[Event.dispatch req1], by simp⟩

/-- Whatever happens afterwards, the first event a `WithToken` loop with at
least one attempt of fuel appends is the dispatch of the request with the
current bearer token and user agent added. -/
lemma withTokenLoop_first_dispatch (oracle : Nat → HttpOutcome β) (c : Client β)
    (req : Request β) (d : Int) (k : Nat) (st : St β) :
    ∃ rest, (withTokenLoop oracle c req d (k + 1) st).1.trace
      = st.trace ++ Event.dispatch ((req.headerAdd "Authorization"
          ("Bearer " ++ c.token)).headerAdd "User-Agent" UserAgent) :: rest := by
  rw [show k + 1 = Nat.succ k from rfl, withTokenLoop]
  generalize (req.headerAdd "Authorization"
    ("Bearer " ++ c.token)).headerAdd "User-Agent" UserAgent = req1
  rcases hcl : classify c (oracle st.used) with _ | _ | r <;> simp only []
  · obtain ⟨t1, h1⟩ := outerWait_trace c d k (st.dispatchRec req1)
    obtain ⟨t2, h2⟩ := withTokenLoop_trace_mono oracle k c req1
      (outerWait c d k (st.dispatchRec req1)).2 (outerWait c d k (st.dispatchRec req1)).1
    refine ⟨t1 ++ t2, ?_⟩
    rw [h2, h1]
    simp
  · rcases hA : (applyToken oracle c ((st.dispatchRec req1).sleepRec d)).2 with m | e | c2 <;>
      simp only []
    · obtain ⟨t1, h1⟩ := applyToken_trace_mono oracle c ((st.dispatchRec req1).sleepRec d)
      exact ⟨Event.sleep d :: Event.refreshCall :: t1, by rw [h1]; simp⟩
    · obtain ⟨t1, h1⟩ := applyToken_trace_mono oracle c ((st.dispatchRec req1).sleepRec d)
      exact ⟨Event.sleep d :: Event.refreshCall :: t1, by rw [h1]; simp⟩
    · obtain ⟨t1, h1⟩ := applyToken_trace_mono oracle c ((st.dispatchRec req1).sleepRec d)
      obtain ⟨t2, h2⟩ := outerWait_trace c2 (if c.exponentialBackoff then d * 2 else d) k
        (applyToken oracle c ((st.dispatchRec req1).sleepRec d)).1
      obtain ⟨t3, h3⟩ := withTokenLoop_trace_mono oracle k c2 req1
        (outerWait c2 (if c.exponentialBackoff then d * 2 else d) k
          (applyToken oracle c ((st.dispatchRec req1).sleepRec d)).1).2
        (outerWait c2 (if c.exponentialBackoff then d * 2 else d) k
          (applyToken oracle c ((st.dispatchRec req1).sleepRec d)).1).1
      refine ⟨Event.sleep d :: Event.refreshCall :: (t1 ++ t2 ++ t3), ?_⟩
      rw [h3, h2, h1]
      simp
  · exact ⟨[], by simp⟩

/-- One `WithToken` attempt that observes an 801 envelope and refreshes
successfully: the attempt dispatches, sleeps the current delay, doubles it
(backoff), refreshes, then the shared wait block sleeps the doubled delay
and doubles again, and the loop continues with the renewed client, the
accumulated request, and one less attempt of fuel. -/
lemma withTokenLoop_801_renewed (oracle : Nat → HttpOutcome β) (c : Client β)
    (req : Request β) (d : Int) (rem : Nat) (st : St β) (b : β) (c2 : Client β)
    (h0 : oracle st.used = HttpOutcome.response 200 (Except.ok b))
    (h801 : (parseBody c b).Code = 801)
    (hA : (applyToken oracle c
        ((st.dispatchRec ((req.headerAdd "Authorization" ("Bearer " ++ c.token)).headerAdd
          "User-Agent" UserAgent)).sleepRec d)).2 = ATOutcome.renewed c2) :
    withTokenLoop oracle c req d (rem + 2) st
      = withTokenLoop oracle c2
          ((req.headerAdd "Authorization" ("Bearer " ++ c.token)).headerAdd "User-Agent" UserAgent)
          (if c2.exponentialBackoff then (if c.exponentialBackoff then d * 2 else d) * 2
           else (if c.exponentialBackoff then d * 2 else d))
          (rem + 1)
          (((applyToken oracle c
            ((st.dispatchRec ((req.headerAdd "Authorization" ("Bearer " ++ c.token)).headerAdd
              "User-Agent" UserAgent)).sleepRec d)).1).sleepRec
            (if c.exponentialBackoff then d * 2 else d)) := by
  rw [show rem + 2 = Nat.succ (Nat.succ rem) from rfl, withTokenLoop,
    classify_eq_retry801 c (oracle st.used) b h0 h801]
  simp only [hA, outerWait]

/-- One `WithToken` attempt that observes an 801 envelope and whose
credential refresh fails: the whole call aborts at once with the refresh
error, from the state the failed refresh left behind. -/
lemma withTokenLoop_801_failed (oracle : Nat → HttpOutcome β) (c : Client β)
    (req : Request β) (d : Int) (k : Nat) (st : St β) (b : β) (e : GoError)
    (h0 : oracle st.used = HttpOutcome.response 200 (Except.ok b))
    (h801 : (parseBody c b).Code = 801)
    (hA : (applyToken oracle c
        ((st.dispatchRec ((req.headerAdd "Authorization" ("Bearer " ++ c.token)).headerAdd
          "User-Agent" UserAgent)).sleepRec d)).2 = ATOutcome.failed e) :
    withTokenLoop oracle c req d (k + 1) st
      = ((applyToken oracle c
          ((st.dispatchRec ((req.headerAdd "Authorization" ("Bearer " ++ c.token)).headerAdd
            "User-Agent" UserAgent)).sleepRec d)).1,
         CallOutcome.done { client := c, Err := some e }) := by
  rw [show k + 1 = Nat.succ k from rfl, withTokenLoop,
    classify_eq_retry801 c (oracle st.used) b h0 h801]
  simp only [hA]

/-- A full `WithToken` loop with `fuel` attempts dispatches at most
`fuel * (1 + M)` requests when every client it runs under retries at most
`M` times (each attempt costs one dispatch plus at most `M` inside the
credential refresh; renewal only changes the token). -/
lemma withTokenLoop_dispatchCount_le (oracle : Nat → HttpOutcome β) (M : Nat) :
    ∀ (fuel : Nat) (c : Client β) (req : Request β) (d : Int) (st : St β),
      c.maxRetries.toNat ≤ M →
      dispatchCount ((withTokenLoop oracle c req d fuel st).1.trace)
        ≤ dispatchCount st.trace + fuel * (1 + M) := by
  intro fuel
  induction fuel with
  | zero => intro c req d st hM; simp [withTokenLoop]
  | succ rem ih =>
    intro c req d st hM
    rw [withTokenLoop]
    generalize (req.headerAdd "Authorization"
      ("Bearer " ++ c.token)).headerAdd "User-Agent" UserAgent = req1
    rcases hcl : classify c (oracle st.used) with _ | _ | r <;> simp only []
    · refine le_trans (ih c req1 (outerWait c d rem (st.dispatchRec req1)).2
        (outerWait c d rem (st.dispatchRec req1)).1 hM) ?_
      have hw : dispatchCount (outerWait c d rem (st.dispatchRec req1)).1.trace
          = dispatchCount st.trace + 1 := by simp
      rw [hw, Nat.succ_mul]
      omega
    · rcases hA : (applyToken oracle c ((st.dispatchRec req1).sleepRec d)).2 with m | e | c2 <;>
        simp only []
      · refine le_trans (applyToken_dispatchCount_le oracle c _) ?_
        have hw : dispatchCount ((st.dispatchRec req1).sleepRec d).trace
            = dispatchCount st.trace + 1 := by simp
        rw [hw, Nat.succ_mul]
        omega
      · refine le_trans (applyToken_dispatchCount_le oracle c _) ?_
        have hw : dispatchCount ((st.dispatchRec req1).sleepRec d).trace
            = dispatchCount st.trace + 1 := by simp
        rw [hw, Nat.succ_mul]
        omega
      · have hc2 : c2.maxRetries.toNat ≤ M := by
          obtain ⟨t, ht⟩ := applyToken_renewed_shape oracle c _ c2 hA
          rw [ht]
          exact hM
        refine le_trans (ih c2 req1
          (outerWait c2 (if c.exponentialBackoff then d * 2 else d) rem
            (applyToken oracle c ((st.dispatchRec req1).sleepRec d)).1).2
          (outerWait c2 (if c.exponentialBackoff then d * 2 else d) rem
            (applyToken oracle c ((st.dispatchRec req1).sleepRec d)).1).1 hc2) ?_
        have hw : dispatchCount (outerWait c2 (if c.exponentialBackoff then d * 2 else d) rem
            (applyToken oracle c ((st.dispatchRec req1).sleepRec d)).1).1.trace
            = dispatchCount ((applyToken oracle c ((st.dispatchRec req1).sleepRec d)).1).trace := by
          simp
        have hat := applyToken_dispatchCount_le oracle c ((st.dispatchRec req1).sleepRec d)
        have hs : dispatchCount ((st.dispatchRec req1).sleepRec d).trace
            = dispatchCount st.trace + 1 := by simp
        rw [hw, Nat.succ_mul]
        omega
    · have hw : dispatchCount (st.dispatchRec req1).trace = dispatchCount st.trace + 1 := by simp
      rw [hw, Nat.succ_mul]
      have h1M : 1 ≤ 1 + M := by omega
      omega

end Lemmas

section ConfigLemmas

variable {β : Type}

/-- A successful refresh changes no configuration field. -/
lemma applyToken_config (oracle : Nat → HttpOutcome β) (c : Client β) (st : St β) (c2 : Client β)
    (h : (applyToken oracle c st).2 = ATOutcome.renewed c2) : c2.configOf = c.configOf := by
  obtain ⟨t, ht⟩ := applyToken_renewed_shape oracle c st c2 h
  rw [ht]
  rfl

/-- `Send` binds the sender to the same client object, unchanged. -/
lemma Send_client (c : Client β) (url method : String) (p : Option Json) :
    (c.Send url method p).client = c := by
  unfold Client.Send
  rcases p with _ | q
  · rfl
  · simp only []
    split <;> rfl

/-- Any result a `WithToken` loop completes with carries a client whose
configuration equals the configuration the loop started with. -/
lemma withTokenLoop_result_config (oracle : Nat → HttpOutcome β) :
    ∀ (fuel : Nat) (c : Client β) (req : Request β) (d : Int) (st : St β) (r : Result β),
      (withTokenLoop oracle c req d fuel st).2 = CallOutcome.done r →
      r.client.configOf = c.configOf := by
  intro fuel
  induction fuel with
  | zero =>
    intro c req d st r h
    rw [withTokenLoop] at h
    simp only [] at h
    injection h with h2
    rw [← h2]
  | succ rem ih =>
    intro c req d st r h
    rw [withTokenLoop] at h
    generalize (req.headerAdd "Authorization"
      ("Bearer " ++ c.token)).headerAdd "User-Agent" UserAgent = req1 at h
    rcases hcl : classify c (oracle st.used) with _ | _ | r0 <;> rw [hcl] at h <;> simp only [] at h
    · exact ih c req1 _ _ r h
    · rcases hA : (applyToken oracle c ((st.dispatchRec req1).sleepRec d)).2 with m | e | c2 <;>
        rw [hA] at h <;> simp only [] at h
      · exact absurd h (by simp)
      · injection h with h2
        rw [← h2]
      · rw [ih c2 req1 _ _ r h]
        exact applyToken_config oracle c _ c2 hA
    · injection h with h2
      rw [← h2, classify_finished_client c (oracle st.used) r0 hcl]

end ConfigLemmas

section Claims

/-- C1 (counterexample): an upstream that always answers HTTP 200 with a
body that decodes as generic JSON but fails envelope decoding makes every
attempt end in an envelope-decode failure, yet `WithToken` on a client with
`maxRetries = 3` returns after a single attempt, without sleeping, carrying
the parse error — not the claimed 3 attempts, 2 sleeps and retry-exhaustion
error.  (Only a body failing the generic `bodyRaw` decode is retried.) -/
theorem c1_counterexample_bad_envelope :
    oracleBadEnvelope 0 = HttpOutcome.response 200 (Except.ok badEnvelopeBody)
    ∧ decodeEnvelope badEnvelopeBody = Except.error (GoError.msg "cannot unmarshal code field")
    ∧ idClient.maxRetries = 3
    ∧ dispatchCount runBadEnvelope.1.trace = 1
    ∧ sleepDurations runBadEnvelope.1.trace = []
    ∧ runBadEnvelope.2.toResult.map Result.Err
        = some (some (GoError.msg "cannot unmarshal code field")) :=
  ⟨rfl, rfl, rfl, rfl, rfl, rfl⟩

/-- C1 (amended): for `maxRetries = N ≥ 1` and an upstream whose every
attempt ends in a generically retryable outcome — transport error, non-200
HTTP status, body-read failure, or a body whose generic decode fails
(`classify = retry`) — `WithToken` and `WithKey` perform exactly N dispatch
attempts, sleep N−1 times, and return a Result whose `Err` is the
"request failed after N retries" error. -/
theorem c1_retry_exhaustion (β : Type) (oracle : Nat → HttpOutcome β) (s : Sender β)
    (hserr : s.err = none)
    (hret : ∀ i, classify s.client (oracle i) = Classified.retry)
    (hN : 1 ≤ s.client.maxRetries) :
    dispatchCount ((s.WithToken oracle St.init).1.trace) = s.client.maxRetries.toNat
    ∧ (sleepDurations ((s.WithToken oracle St.init).1.trace)).length
        = s.client.maxRetries.toNat - 1
    ∧ (s.WithToken oracle St.init).2
        = CallOutcome.done { client := s.client, Err := some (GoError.retriesExhausted s.client.maxRetries) }
    ∧ dispatchCount ((s.WithKey oracle St.init).1.trace) = s.client.maxRetries.toNat
    ∧ (sleepDurations ((s.WithKey oracle St.init).1.trace)).length
        = s.client.maxRetries.toNat - 1
    ∧ (s.WithKey oracle St.init).2
        = { client := s.client, Err := some (GoError.retriesExhausted s.client.maxRetries) } := by
  have hWT : s.WithToken oracle St.init
      = withTokenLoop oracle s.client s.request s.client.retryDelay
          s.client.maxRetries.toNat St.init := by
    unfold Sender.WithToken
    rw [hserr]
  have hWK : s.WithKey oracle St.init
      = withKeyLoop oracle s.client s.request s.client.retryDelay
          s.client.maxRetries.toNat St.init := by
    unfold Sender.WithKey
    rw [hserr]
  obtain ⟨t1, t2, t3, t4⟩ := withTokenLoop_retry_run oracle s.client hret
    s.client.maxRetries.toNat s.request s.client.retryDelay St.init
  obtain ⟨k1, k2, k3, k4⟩ := withKeyLoop_retry_run oracle s.client hret
    s.client.maxRetries.toNat s.request s.client.retryDelay St.init
  rw [hWT, hWK]
  refine ⟨?_, ?_, t4, ?_, ?_, k4⟩
  · rw [t2]; simp [St.init]
  · rw [t1]; simp [St.init, retryDelaySeq_length]
  · rw [k2]; simp [St.init]
  · rw [k1]; simp [St.init, retryDelaySeq_length]

/-- C1 witness: concrete all-transport-error run with `maxRetries = 3`. -/
theorem c1_retry_exhaustion_witness :
    mainSender.err = none
    ∧ dispatchCount ((mainSender.WithToken oracleRefused St.init).1.trace) = 3
    ∧ (mainSender.WithKey oracleRefused St.init).2
        = { client := idClient, Err := some (GoError.retriesExhausted 3) } := by
  have h := c1_retry_exhaustion Json oracleRefused mainSender rfl (fun i => rfl) (by decide)
  exact ⟨rfl, h.1, h.2.2.2.2.2⟩

/-- C2 (counterexample): in the 801-then-renewal run, the retried attempt's
request holds TWO Authorization values — `Header.Add` appends — and the
header's value in the `Get` sense (the first one) is still the stale
`Bearer old`, not the newly acquired `Bearer new`. -/
theorem c2_counterexample_stale_authorization_value :
    refreshCount runRenew.1.trace = 1
    ∧ ((dispatchedRequests runRenew.1.trace).getD 2 emptyRequest).headerGet "Authorization"
        = some "Bearer old"
    ∧ ((dispatchedRequests runRenew.1.trace).getD 2 emptyRequest).headerValues "Authorization"
        = ["Bearer old", "Bearer new"]
    ∧ some "Bearer old" ≠ some "Bearer new" :=
  ⟨rfl, rfl, rfl, by decide⟩

/-- C2 (amended): an 801 attempt whose refresh succeeds triggers exactly
one `applyToken` call for that occurrence, and the subsequent retried
attempt carries the newly acquired token as an ADDITIONAL appended
Authorization header value — the earlier Authorization values, the stale
token first, remain on the request. -/
theorem c2_refresh_once_and_token_appended (β : Type) (oracle : Nat → HttpOutcome β)
    (c : Client β) (req : Request β) (d : Int) (rem : Nat) (st : St β) (b : β) (c2 : Client β)
    (h0 : oracle st.used = HttpOutcome.response 200 (Except.ok b))
    (h801 : (parseBody c b).Code = 801)
    (hA : (applyToken oracle c
        ((st.dispatchRec ((req.headerAdd "Authorization" ("Bearer " ++ c.token)).headerAdd
          "User-Agent" UserAgent)).sleepRec d)).2 = ATOutcome.renewed c2) :
    refreshCount ((applyToken oracle c
        ((st.dispatchRec ((req.headerAdd "Authorization" ("Bearer " ++ c.token)).headerAdd
          "User-Agent" UserAgent)).sleepRec d)).1.trace) = refreshCount st.trace + 1
    ∧ (∃ rest, (withTokenLoop oracle c req d (rem + 2) st).1.trace
        = (((applyToken oracle c
            ((st.dispatchRec ((req.headerAdd "Authorization" ("Bearer " ++ c.token)).headerAdd
              "User-Agent" UserAgent)).sleepRec d)).1).sleepRec
            (if c.exponentialBackoff then d * 2 else d)).trace
          ++ Event.dispatch ((((req.headerAdd "Authorization" ("Bearer " ++ c.token)).headerAdd
              "User-Agent" UserAgent).headerAdd "Authorization"
              ("Bearer " ++ c2.token)).headerAdd "User-Agent" UserAgent) :: rest)
    ∧ ((((req.headerAdd "Authorization" ("Bearer " ++ c.token)).headerAdd
          "User-Agent" UserAgent).headerAdd "Authorization"
          ("Bearer " ++ c2.token)).headerAdd "User-Agent" UserAgent).headerValues "Authorization"
        = req.headerValues "Authorization" ++ ["Bearer " ++ c.token, "Bearer " ++ c2.token] := by
  refine ⟨?_, ?_, ?_⟩
  · rw [applyToken_refreshCount]
    simp
  · rw [withTokenLoop_801_renewed oracle c req d rem st b c2 h0 h801 hA]
    exact withTokenLoop_first_dispatch oracle c2 _ _ rem _
  · have hUA : ("User-Agent" : String) ≠ "Authorization" := by decide
    rw [headerValues_headerAdd_ne _ _ _ _ hUA, headerValues_headerAdd_self,
      headerValues_headerAdd_ne _ _ _ _ hUA, headerValues_headerAdd_self]
    simp

/-- C2 witness: the 801-then-renewal scenario, old token `"old"`, new token
`"new"`. -/
theorem c2_refresh_once_and_token_appended_witness :
    refreshCount ((applyToken oracle801ThenRenew idClient
        ((St.init.dispatchRec mainReq1).sleepRec 1)).1.trace) = 1
    ∧ (∃ rest, (withTokenLoop oracle801ThenRenew idClient baseReq 1 (1 + 2) St.init).1.trace
        = (((applyToken oracle801ThenRenew idClient
            ((St.init.dispatchRec mainReq1).sleepRec 1)).1).sleepRec 2).trace
          ++ Event.dispatch mainReq2 :: rest)
    ∧ mainReq2.headerValues "Authorization" = ["Bearer old", "Bearer new"] := by
  have h := c2_refresh_once_and_token_appended Json oracle801ThenRenew idClient baseReq 1 1
    St.init env801 renewedClient rfl rfl rfl
  exact h

/-- C3 (counterexample): in the 801-then-renewal run (base delay 1,
exponential backoff on) the single 801 occurrence is followed by TWO
sleeps, not one: the inner sleep of 1s before the refresh, and the shared
retry-wait sleep of 2s between the refresh and the next dispatch. -/
theorem c3_counterexample_double_sleep :
    runRenew.1.trace
      = [Event.dispatch mainReq1, Event.sleep 1, Event.refreshCall,
         Event.dispatch tokenReq1, Event.sleep 2, Event.dispatch mainReq2]
    ∧ refreshCount runRenew.1.trace = 1
    ∧ sleepDurations runRenew.1.trace = [1, 2] :=
  ⟨rfl, rfl, rfl⟩

/-- C3 (amended): an 801 attempt sleeps the current delay and doubles it
before the refresh; after a successful refresh that was not the last
attempt, the shared retry-wait block sleeps AGAIN (the doubled delay) and
doubles once more before the next dispatch — so the occurrence consumes two
sleeps, not one.  A failed refresh still aborts the whole call immediately
with exactly the refresh error, performing no further attempt. -/
theorem c3_801_two_sleeps_or_abort (β : Type) (oracle : Nat → HttpOutcome β) :
    (∀ (c : Client β) (req : Request β) (d : Int) (rem : Nat) (st : St β) (b : β) (c2 : Client β),
        oracle st.used = HttpOutcome.response 200 (Except.ok b) →
        (parseBody c b).Code = 801 →
        (applyToken oracle c ((st.dispatchRec ((req.headerAdd "Authorization"
            ("Bearer " ++ c.token)).headerAdd "User-Agent" UserAgent)).sleepRec d)).2
          = ATOutcome.renewed c2 →
        withTokenLoop oracle c req d (rem + 2) st
          = withTokenLoop oracle c2
              ((req.headerAdd "Authorization" ("Bearer " ++ c.token)).headerAdd
                "User-Agent" UserAgent)
              (if c2.exponentialBackoff then (if c.exponentialBackoff then d * 2 else d) * 2
               else (if c.exponentialBackoff then d * 2 else d))
              (rem + 1)
              (((applyToken oracle c ((st.dispatchRec ((req.headerAdd "Authorization"
                ("Bearer " ++ c.token)).headerAdd "User-Agent" UserAgent)).sleepRec d)).1).sleepRec
                (if c.exponentialBackoff then d * 2 else d)))
    ∧ (∀ (c : Client β) (req : Request β) (d : Int) (k : Nat) (st : St β) (b : β) (e : GoError),
        oracle st.used = HttpOutcome.response 200 (Except.ok b) →
        (parseBody c b).Code = 801 →
        (applyToken oracle c ((st.dispatchRec ((req.headerAdd "Authorization"
            ("Bearer " ++ c.token)).headerAdd "User-Agent" UserAgent)).sleepRec d)).2
          = ATOutcome.failed e →
        withTokenLoop oracle c req d (k + 1) st
          = ((applyToken oracle c ((st.dispatchRec ((req.headerAdd "Authorization"
              ("Bearer " ++ c.token)).headerAdd "User-Agent" UserAgent)).sleepRec d)).1,
             CallOutcome.done { client := c, Err := some e })) :=
  ⟨fun c req d rem st b c2 h0 h801 hA =>
    withTokenLoop_801_renewed oracle c req d rem st b c2 h0 h801 hA,
   fun c req d k st b e h0 h801 hA =>
    withTokenLoop_801_failed oracle c req d k st b e h0 h801 hA⟩

/-- C3 witness: renewal continues (and the run shows sleeps `[1, 2]` for
the one occurrence); a refresh that exhausts its own retries aborts the
call with that error. -/
theorem c3_801_two_sleeps_or_abort_witness :
    sleepDurations (withTokenLoop oracle801ThenRenew idClient baseReq 1 3 St.init).1.trace = [1, 2]
    ∧ (withTokenLoop oracle801ThenRefusedRefresh idClient baseReq 1 3 St.init).2
        = CallOutcome.done { client := idClient, Err := some (GoError.retriesExhausted 3) } := by
  have h1 : withTokenLoop oracle801ThenRenew idClient baseReq 1 3 St.init = _ :=
    (c3_801_two_sleeps_or_abort Json oracle801ThenRenew).1 idClient baseReq 1 1 St.init env801
      renewedClient rfl rfl rfl
  have h2 : withTokenLoop oracle801ThenRefusedRefresh idClient baseReq 1 3 St.init = _ :=
    (c3_801_two_sleeps_or_abort Json oracle801ThenRefusedRefresh).2 idClient baseReq 1 2 St.init
      env801 (GoError.retriesExhausted 3) rfl rfl rfl
  constructor
  · rw [h1]; rfl
  · rw [h2]

/-- C4: with exponential backoff enabled the k-th slept delay (1-indexed)
of a generically-retried run is `retryDelay * 2 ^ (k−1)`; with backoff
disabled every slept delay equals the base delay; and the delay counter of
each `WithToken`/`WithKey` invocation starts at the client's configured
base retry delay (the first slept delay is exactly `retryDelay`). -/
theorem c4_backoff_delay_schedule (β : Type) (oracle : Nat → HttpOutcome β) (s : Sender β)
    (hserr : s.err = none)
    (hret : ∀ i, classify s.client (oracle i) = Classified.retry) :
    sleepDurations ((s.WithToken oracle St.init).1.trace)
      = (if s.client.exponentialBackoff then
           (List.range (s.client.maxRetries.toNat - 1)).map
             (fun k => s.client.retryDelay * 2 ^ k)
         else List.replicate (s.client.maxRetries.toNat - 1) s.client.retryDelay)
    ∧ sleepDurations ((s.WithKey oracle St.init).1.trace)
      = (if s.client.exponentialBackoff then
           (List.range (s.client.maxRetries.toNat - 1)).map
             (fun k => s.client.retryDelay * 2 ^ k)
         else List.replicate (s.client.maxRetries.toNat - 1) s.client.retryDelay) := by
  have hWT : s.WithToken oracle St.init
      = withTokenLoop oracle s.client s.request s.client.retryDelay
          s.client.maxRetries.toNat St.init := by
    unfold Sender.WithToken
    rw [hserr]
  have hWK : s.WithKey oracle St.init
      = withKeyLoop oracle s.client s.request s.client.retryDelay
          s.client.maxRetries.toNat St.init := by
    unfold Sender.WithKey
    rw [hserr]
  have t1 := (withTokenLoop_retry_run oracle s.client hret
    s.client.maxRetries.toNat s.request s.client.retryDelay St.init).1
  have k1 := (withKeyLoop_retry_run oracle s.client hret
    s.client.maxRetries.toNat s.request s.client.retryDelay St.init).1
  rw [hWT, hWK]
  constructor
  · rw [t1]
    cases hb : s.client.exponentialBackoff
    · simp [St.init, retryDelaySeq_false]
    · simp [St.init, retryDelaySeq_true]
  · rw [k1]
    cases hb : s.client.exponentialBackoff
    · simp [St.init, retryDelaySeq_false]
    · simp [St.init, retryDelaySeq_true]

/-- C4 witness: backoff on gives delays `[1, 2]`; backoff off gives
`[1, 1]` (base delay 1, `maxRetries = 3`). -/
theorem c4_backoff_delay_schedule_witness :
    sleepDurations ((mainSender.WithKey oracleRefused St.init).1.trace) = [1, 2]
    ∧ sleepDurations ((noBackoffSender.WithToken oracleRefused St.init).1.trace) = [1, 1] := by
  have h1 := (c4_backoff_delay_schedule Json oracleRefused mainSender rfl (fun i => rfl)).2
  have h2 := (c4_backoff_delay_schedule Json oracleRefused noBackoffSender rfl (fun i => rfl)).1
  constructor
  · rw [h1]; decide
  · rw [h2]; decide

/-- C5: a response with HTTP status 200 whose envelope decodes with a code
that is neither 801 nor 200 is returned as the parsed Result immediately
from that first attempt — one dispatch, no sleep, no refresh — and the
Result's `OK` predicate is false. -/
theorem c5_business_code_immediate (β : Type) (oracle : Nat → HttpOutcome β) (s : Sender β)
    (b : β)
    (hserr : s.err = none)
    (h0 : oracle 0 = HttpOutcome.response 200 (Except.ok b))
    (hErr : (parseBody s.client b).Err = none)
    (h801 : (parseBody s.client b).Code ≠ 801)
    (h200 : (parseBody s.client b).Code ≠ 200)
    (hN : 1 ≤ s.client.maxRetries) :
    s.WithToken oracle St.init
      = (St.init.dispatchRec ((s.request.headerAdd "Authorization"
          ("Bearer " ++ s.client.token)).headerAdd "User-Agent" UserAgent),
         CallOutcome.done (parseBody s.client b))
    ∧ s.WithKey oracle St.init
      = (St.init.dispatchRec ((s.request.headerAdd "Authorization"
          ("Basic " ++ s.client.secretID ++ ":" ++ s.client.secretKey)).headerAdd
          "User-Agent" UserAgent),
         parseBody s.client b)
    ∧ dispatchCount ((s.WithToken oracle St.init)).1.trace = 1
    ∧ sleepDurations ((s.WithToken oracle St.init)).1.trace = []
    ∧ refreshCount ((s.WithToken oracle St.init)).1.trace = 0
    ∧ (parseBody s.client b).OK = false := by
  obtain ⟨k, hk⟩ : ∃ k, s.client.maxRetries.toNat = k + 1 := by
    refine ⟨s.client.maxRetries.toNat - 1, ?_⟩
    omega
  have hcl := classify_eq_finished s.client (oracle 0) b h0 hErr h801
  have hWT : s.WithToken oracle St.init
      = withTokenLoop oracle s.client s.request s.client.retryDelay (k + 1) St.init := by
    unfold Sender.WithToken
    rw [hserr, hk]
  have hWK : s.WithKey oracle St.init
      = withKeyLoop oracle s.client s.request s.client.retryDelay (k + 1) St.init := by
    unfold Sender.WithKey
    rw [hserr, hk]
  have hstepT : withTokenLoop oracle s.client s.request s.client.retryDelay (k + 1) St.init
      = (St.init.dispatchRec ((s.request.headerAdd "Authorization"
          ("Bearer " ++ s.client.token)).headerAdd "User-Agent" UserAgent),
         CallOutcome.done (parseBody s.client b)) := by
    rw [show k + 1 = Nat.succ k from rfl, withTokenLoop, St.used_init, hcl]
  have hstepK : withKeyLoop oracle s.client s.request s.client.retryDelay (k + 1) St.init
      = (St.init.dispatchRec ((s.request.headerAdd "Authorization"
          ("Basic " ++ s.client.secretID ++ ":" ++ s.client.secretKey)).headerAdd
          "User-Agent" UserAgent),
         parseBody s.client b) := by
    rw [show k + 1 = Nat.succ k from rfl, withKeyLoop, St.used_init, hcl]
  rw [hWT, hWK, hstepT, hstepK]
  refine ⟨rfl, rfl, by simp [St.init], by simp [St.init], by simp [St.init], ?_⟩
  simp only [Result.OK, beq_eq_false_iff_ne]
  exact h200

/-- C5 witness: envelope code 403 is surfaced immediately with `OK = false`. -/
theorem c5_business_code_immediate_witness :
    (mainSender.WithToken oracle403 St.init).2
      = CallOutcome.done (parseBody mainSender.client env403)
    ∧ dispatchCount ((mainSender.WithToken oracle403 St.init)).1.trace = 1
    ∧ (parseBody mainSender.client env403).OK = false := by
  have h := c5_business_code_immediate Json oracle403 mainSender env403 rfl rfl rfl
    (by decide) (by decide) (by decide)
  exact ⟨by rw [h.1], h.2.2.1, h.2.2.2.2.2⟩

/-- C6: parsing the encoding of a well-formed `{code: 200, msg: "ok",
data: P}` envelope yields a Result whose `Body` is exactly the
re-serialized `data` sub-document (not the whole envelope), and decoding
that `Body` with the same codec gives back `P` — the envelope round-trip
law, under the hypotheses that the codec round-trips on the two values
involved. -/
theorem c6_envelope_roundtrip (β : Type) (c : Client β) (P : Json) (b bp : β)
    (hEnc : c.marshal (Json.obj [("code", Json.num 200), ("msg", Json.str "ok"), ("data", P)])
      = Except.ok b)
    (hDec : c.unmarshal b
      = Except.ok (Json.obj [("code", Json.num 200), ("msg", Json.str "ok"), ("data", P)]))
    (hEncP : c.marshal P = Except.ok bp)
    (hDecP : c.unmarshal bp = Except.ok P) :
    parseBody c b = { client := c, Code := 200, Msg := "ok", Body := some bp, Err := none }
    ∧ (parseBody c b).Unmarshal = Except.ok P := by
  have hp : parseBody c b
      = { client := c, Code := 200, Msg := "ok", Body := some bp, Err := none } := by
    unfold parseBody
    rw [hDec]
    simp only []
    rw [show decodeEnvelope (Json.obj [("code", Json.num 200), ("msg", Json.str "ok"),
      ("data", P)]) = Except.ok { code := 200, msg := "ok", data := P } from rfl]
    simp only []
    rw [hEncP]
  refine ⟨hp, ?_⟩
  rw [hp]
  simp [Result.Unmarshal, hDecP]

/-- C6 witness: identity codec, payload `true`. -/
theorem c6_envelope_roundtrip_witness :
    parseBody idClient
        (Json.obj [("code", Json.num 200), ("msg", Json.str "ok"), ("data", Json.bool true)])
      = { client := idClient, Code := 200, Msg := "ok", Body := some (Json.bool true), Err := none }
    ∧ (parseBody idClient
        (Json.obj [("code", Json.num 200), ("msg", Json.str "ok"), ("data", Json.bool true)])).Unmarshal
      = Except.ok (Json.bool true) :=
  c6_envelope_roundtrip Json idClient (Json.bool true)
    (Json.obj [("code", Json.num 200), ("msg", Json.str "ok"), ("data", Json.bool true)])
    (Json.bool true) rfl rfl rfl rfl

/-- C7: a sender that carries a construction error (e.g. a payload-encoding
failure in `Send`) makes `WithToken` and `WithKey` return immediately a
failed Result carrying exactly that error, with the state untouched — no
dispatch, no sleep, no refresh; and `Send` with a failing payload encoding
produces exactly such a sender. -/
theorem c7_construction_error_short_circuit (β : Type) :
    (∀ (oracle : Nat → HttpOutcome β) (s : Sender β) (e : GoError) (st : St β),
        s.err = some e →
        s.WithToken oracle st = (st, CallOutcome.done { client := s.client, Err := some e })
        ∧ s.WithKey oracle st = (st, { client := s.client, Err := some e }))
    ∧ (∀ (c : Client β) (url method : String) (p : Json) (e : GoError),
        c.marshal p = Except.error e →
        c.Send url method (some p) = { client := c, request := emptyRequest, err := some e }) := by
  constructor
  · intro oracle s e st h
    constructor
    · unfold Sender.WithToken
      rw [h]
    · unfold Sender.WithKey
      rw [h]
  · intro c url method p e h
    unfold Client.Send
    simp only []
    rw [h]

/-- C7 witness: a client whose marshal always fails. -/
theorem c7_construction_error_short_circuit_witness :
    failSender.err = some (GoError.msg "encode failure")
    ∧ failSender.WithToken oracleRefused St.init
        = (St.init, CallOutcome.done { client := failSender.client, Err := some (GoError.msg "encode failure") })
    ∧ failMarshalClient.Send "U" "POST" (some (Json.bool true))
        = { client := failMarshalClient, request := emptyRequest, err := some (GoError.msg "encode failure") } := by
  refine ⟨rfl, ?_, ?_⟩
  · exact ((c7_construction_error_short_circuit Json).1 oracleRefused failSender
      (GoError.msg "encode failure") St.init rfl).1
  · exact (c7_construction_error_short_circuit Json).2 failMarshalClient "U" "POST"
      (Json.bool true) (GoError.msg "encode failure") rfl

/-- C8 (code bug): when the token endpoint answers HTTP 200, envelope code
200, but `data` that does not decode as `{token: string}`, the inner
`WithKey` result has `Err = nil` and `OK() = true`, yet `result.Unmarshal`
fails — and `applyToken`'s error-logging line evaluates
`result.Err.Error()` on that nil error: a nil-pointer-dereference panic
instead of the documented descriptive error return. -/
theorem c8_applyToken_nil_dereference_panic :
    (applyToken oracleBadTokenData idClient St.init).2
      = ATOutcome.panicked "runtime error: invalid memory address or nil pointer dereference"
    ∧ ((idClient.Send (idClient.endpoint ++ "/openAPI/token") "GET" none).WithKey
        oracleBadTokenData St.init).2.Err = none
    ∧ ((idClient.Send (idClient.endpoint ++ "/openAPI/token") "GET" none).WithKey
        oracleBadTokenData St.init).2.OK = true
    ∧ decodeTokenData (Json.obj [("token", Json.num 123)])
      = Except.error (GoError.msg "cannot unmarshal token field") :=
  ⟨rfl, rfl, rfl, rfl⟩

/-- C9 (counterexample): the functional options perform no validation, so
`NewClient` happily constructs a client with `maxRetries = 0` or
`timeout = -1`, violating the claimed invariant `maxRetries ≥ 1 ∧
timeout > 0`. -/
theorem c9_counterexample_unvalidated_options :
    ((NewClient oracleRefused (fun j => Except.ok j) (fun j => Except.ok j) "id" "key"
        [WithMaxRetries 0, EnableToken false] St.init).2.toClient.map Client.maxRetries)
      = some 0
    ∧ ((NewClient oracleRefused (fun j => Except.ok j) (fun j => Except.ok j) "id" "key"
        [WithTimeout (-1), EnableToken false] St.init).2.toClient.map Client.timeout)
      = some (-1) :=
  ⟨rfl, rfl⟩

/-- C9 (amended): the invariant holds for the defaults (`maxRetries = 5`,
`timeout = 3`) but is not enforced against the options; the immutability
half of the claim holds: a successful `applyToken` changes only the token,
`Send` binds the sender to the unchanged client, and every Result a
`WithToken` call completes with carries a client whose configuration
(endpoint, timeout, maxRetries, retryDelay, exponentialBackoff, codec)
equals the one the call started with. -/
theorem c9_config_defaults_and_immutability (β : Type) :
    (∀ (oracle : Nat → HttpOutcome β) (dm : Json → Except GoError β)
        (du : β → Except GoError Json) (sid key : String) (st : St β),
        (NewClient oracle dm du sid key [EnableToken false] st).2.toClient.map Client.maxRetries
            = some 5
        ∧ (NewClient oracle dm du sid key [EnableToken false] st).2.toClient.map Client.timeout
            = some 3)
    ∧ (∀ (oracle : Nat → HttpOutcome β) (c : Client β) (st : St β) (c2 : Client β),
        (applyToken oracle c st).2 = ATOutcome.renewed c2 → c2.configOf = c.configOf)
    ∧ (∀ (c : Client β) (url method : String) (p : Option Json),
        (c.Send url method p).client = c)
    ∧ (∀ (oracle : Nat → HttpOutcome β) (s : Sender β) (st : St β) (r : Result β),
        (s.WithToken oracle st).2 = CallOutcome.done r → r.client.configOf = s.client.configOf) := by
  refine ⟨?_, ?_, ?_, ?_⟩
  · intro oracle dm du sid key st
    exact ⟨rfl, rfl⟩
  · intro oracle c st c2 h
    exact applyToken_config oracle c st c2 h
  · intro c url method p
    exact Send_client c url method p
  · intro oracle s st r h
    cases hs : s.err with
    | some e =>
      unfold Sender.WithToken at h
      rw [hs] at h
      simp only [] at h
      injection h with h2
      rw [← h2]
    | none =>
      unfold Sender.WithToken at h
      rw [hs] at h
      exact withTokenLoop_result_config oracle _ s.client s.request s.client.retryDelay st r h

/-- C9 witness: defaults satisfy the invariant; the concrete renewal run
preserves the configuration. -/
theorem c9_config_defaults_and_immutability_witness :
    ((NewClient oracleRefused (fun j => Except.ok j) (fun j => Except.ok j) "id" "key"
        [EnableToken false] St.init).2.toClient.map Client.maxRetries = some 5)
    ∧ renewedClient.configOf = idClient.configOf := by
  refine ⟨((c9_config_defaults_and_immutability Json).1 oracleRefused (fun j => Except.ok j)
    (fun j => Except.ok j) "id" "key" St.init).1, ?_⟩
  exact (c9_config_defaults_and_immutability Json).2.1 oracle801ThenRenew idClient
    ((St.init.dispatchRec mainReq1).sleepRec 1) renewedClient rfl

/-- C10: a credential refresh inside `WithToken` runs `WithKey`'s own
complete retry loop against the token endpoint, so one `WithToken` call
dispatches at most `maxRetries * (1 + maxRetries)` HTTP round trips —
and, as the concrete 801-then-dead-network run shows (4 dispatches with
`maxRetries = 3`), the total is NOT bounded by `maxRetries` alone.  The
loops are structurally recursive on their attempt fuel, so every call
terminates after finitely many attempts. -/
theorem c10_total_dispatch_bound (β : Type) :
    (∀ (oracle : Nat → HttpOutcome β) (s : Sender β),
        dispatchCount ((s.WithToken oracle St.init).1.trace)
          ≤ s.client.maxRetries.toNat * (1 + s.client.maxRetries.toNat))
    ∧ dispatchCount ((mainSender.WithToken oracle801ThenRefusedRefresh St.init).1.trace) = 4
    ∧ idClient.maxRetries = 3 := by
  refine ⟨?_, rfl, rfl⟩
  intro oracle s
  cases hs : s.err with
  | some e =>
    unfold Sender.WithToken
    rw [hs]
    exact Nat.zero_le _
  | none =>
    have hb := withTokenLoop_dispatchCount_le oracle s.client.maxRetries.toNat
      s.client.maxRetries.toNat s.client s.request s.client.retryDelay St.init le_rfl
    unfold Sender.WithToken
    rw [hs]
    refine le_trans hb ?_
    simp

end Claims

end OpenAPISDK
